import Mathlib

/-!
Shallow embedding of the `api-billing-connector` repository
(`src/billing-account.js`, `src/origin-matcher.js`, `src/websocket-channel.js`,
the latter containing both the `WebSocketChannel` and the `BillingService`
classes).

JavaScript numbers are modelled as integers extended with a `nan` element
(`JSNum`): comparisons involving `NaN` (or `undefined`, which behaves as `NaN`
under `<` and `+`) are false, and additions involving it produce `NaN`.  Every
numeric value this program manipulates (credit prices, balances, charge
counters) is integral, so the integers are an exact model of the float values
arising here.
JavaScript plain objects used as string-keyed maps are modelled as association
lists (`List (String × α)`) with first-occurrence lookup and in-place update.
A JavaScript method that can throw is modelled with an `Option` result, `none`
standing for a thrown exception.
-/

/-- JavaScript number: an integer, or NaN (also standing for `undefined` in
arithmetic/comparison positions, where it behaves identically). -/
inductive JSNum where
  | nan : JSNum
  | num : ℤ → JSNum
deriving DecidableEq, Repr

/-- JavaScript `+` on numbers: NaN propagates. -/
def JSNum.add : JSNum → JSNum → JSNum
  | JSNum.num a, JSNum.num b => JSNum.num (a + b)
  | _, _ => JSNum.nan

/-- JavaScript `-` on numbers: NaN propagates. -/
def JSNum.sub : JSNum → JSNum → JSNum
  | JSNum.num a, JSNum.num b => JSNum.num (a - b)
  | _, _ => JSNum.nan

/-- JavaScript `<` on numbers: any comparison with NaN is false. -/
def JSNum.lt : JSNum → JSNum → Bool
  | JSNum.num a, JSNum.num b => decide (a < b)
  | _, _ => false

/-- First-occurrence lookup in a JS-object-as-map (`obj[key]`; `none` models
`undefined`). -/
def lookupKey {α : Type} : List (String × α) → String → Option α
  | [], _ => none
  | (k, v) :: rest, key => if k = key then some v else lookupKey rest key

/-- In-place update / insertion of a key in a JS-object-as-map
(`obj[key] = v`): replaces the first occurrence or appends. -/
def setKey {α : Type} : List (String × α) → String → α → List (String × α)
  | [], key, v => [(key, v)]
  | (k, w) :: rest, key, v =>
      if k = key then (key, v) :: rest else (k, w) :: setKey rest key v

/-- `BillingAccount` from `src/billing-account.js`: customer id, API keys,
origins, server-confirmed balance, and locally charged-but-unsynced balance. -/
structure BillingAccount where
  id : String
  apiKeys : List String := []
  origins : List String := []
  balance : JSNum := JSNum.num 0
  chargedBalance : JSNum := JSNum.num 0
deriving DecidableEq, Repr

/-- `get currentBalance() { return this.balance - this.chargedBalance }` -/
def BillingAccount.currentBalance (a : BillingAccount) : JSNum :=
  a.balance.sub a.chargedBalance

/-- `tryCharge(amount)`: returns false if `currentBalance < amount`, otherwise
adds `amount` to `chargedBalance` and returns true.  Result is the updated
account paired with the boolean return value. -/
def BillingAccount.tryCharge (a : BillingAccount) (amount : JSNum) :
    BillingAccount × Bool :=
  if a.currentBalance.lt amount then (a, false)
  else ({ a with chargedBalance := a.chargedBalance.add amount }, true)

/-- `OriginMatcher` from `src/origin-matcher.js`: exact-match origins (`list`)
and wildcard root-domain suffixes (`wildcards`).  JS `Set`s are modelled as
lists queried by membership. -/
structure OriginMatcher where
  wildcards : List String
  list : List String
deriving DecidableEq, Repr

/-- Locates the first occurrence of the substring `"*."` in a character list,
returning the characters before it and after it (models
`origin.includes('*.')` / `origin.indexOf('*.')`). -/
def findStarDot : List Char → Option (List Char × List Char)
  | [] => none
  | '*' :: '.' :: rest => some ([], rest)
  | c :: rest => (findStarDot rest).map (fun p => (c :: p.1, p.2))

/-- The `OriginMatcher` constructor: wildcard entries contribute their root
FQDN to `wildcards` and, with the `"*."` removed, to `list`; other entries go
to `list` as-is. -/
def mkOriginMatcher (allowlist : List String) : OriginMatcher :=
  allowlist.foldl
    (fun m origin =>
      match findStarDot origin.data with
      | some p =>
          { wildcards := m.wildcards ++ [String.mk p.2],
            list := m.list ++ [String.mk (p.1 ++ p.2)] }
      | none => { m with list := m.list ++ [origin] })
    ⟨[], []⟩

/-- JS `\w`: ASCII letter, digit or underscore. -/
def isWordChar (c : Char) : Bool := c.isAlphanum || c = '_'

/-- Result of `/\w+\.\w+$/.exec(origin)`: `some` of the matched substring
(the maximal word-character run before the final dot, the dot, and the
trailing word-character run), or `none` when the regex does not match. -/
def lastDomainMatch (origin : String) : Option String :=
  let r := origin.data.reverse
  let label2 := r.takeWhile isWordChar
  let rest := r.dropWhile isWordChar
  match label2, rest with
  | [], _ => none
  | _, c :: rest2 =>
      if c = '.' then
        let label1 := rest2.takeWhile isWordChar
        if label1 = [] then none
        else some (String.mk (label1.reverse ++ '.' :: label2.reverse))
      else none
  | _, [] => none

/-- `OriginMatcher.match` (named `matchOrigin` here because `match` is a Lean
keyword).  Mirrors the source exactly: the regex result is indexed with `[0]`
without a null check, so a non-matching origin (including the empty string)
throws a `TypeError`, modelled as `none`. -/
def OriginMatcher.matchOrigin (m : OriginMatcher) (origin : String) : Option Bool :=
  if m.list.contains origin then some true
  else
    match lastDomainMatch origin with
    | none => none
    | some d => some (m.wildcards.contains d)

/-- Ledger entry `[chargesCounter, chargedCredits]` for one category. -/
abbrev ChargeEntry := JSNum × JSNum

/-- Per-account category charges (`{category: [counter, credits]}`). -/
abbrev CategoryCharges := List (String × ChargeEntry)

/-- The pending-charges ledger (`{accountId: {category: [counter, credits]}}`). -/
abbrev Ledger := List (String × CategoryCharges)

/-- The first argument of `BillingService.charge`: either a raw account id
string, or a request-headers object exposing `origin` and `authorization`
(`none` models an absent field). -/
inductive ChargeSource where
  | id (fromId : String)
  | headers (origin : Option String) (authorization : Option String)
deriving DecidableEq, Repr

/-- Result of `matchAccountFromRequestHeaders`: the literal `true`
(self-origin short-circuit), a matched account, or the literal `false`. -/
inductive MatchResult where
  | selfOrigin
  | account (a : BillingAccount)
  | noMatch
deriving DecidableEq, Repr

/-- `BillingService` from `src/websocket-channel.js`.  The embedded
`WebSocketChannel` is represented by the only two facets the service reads:
`wsConnected` (`wsChannel.status === 'connected'`) and, in `syncCharges`, the
outcome of `wsChannel.notify` (passed as a parameter).  `syncTimerHandler`
records whether the sync timer handle is truthy. -/
structure BillingService where
  pricing : List (String × JSNum)
  allowlist : List String := []
  syncInterval : ℕ := 5
  accounts : Option (List (String × BillingAccount)) := none
  pendingCharges : Ledger := []
  wsConnected : Bool := false
  syncTimerHandler : Bool := false
  syncInProgress : Bool := false
deriving DecidableEq, Repr

/-- JS truthiness of an optional string (`undefined` and `""` are falsy). -/
def truthyStr : Option String → Bool
  | some s => !(s == "")
  | none => false

/-- Origin normalization inside `matchAccountFromRequestHeaders`:
`origin.toLowerCase().replace(/^https?:\/\//, '')`. -/
def normalizeOrigin (origin : String) : String :=
  let lower := origin.map Char.toLower
  if lower.startsWith "http://" then lower.drop 7
  else if lower.startsWith "https://" then lower.drop 8
  else lower

/-- One account-origin pattern test:
`ao === origin || ao.startsWith('*.') && origin.endsWith(ao.substring(1))`. -/
def originMatchesAccount (origin ao : String) : Bool :=
  ao == origin || (ao.startsWith "*." && origin.endsWith (ao.drop 1))

/-- The bearer-API-key branch of `matchAccountFromRequestHeaders`:
`auth.split(' ')` destructured into type and key, `Bearer` required, then a
linear search over accounts' `apiKeys` (`|| false`). -/
def matchByApiKey (accts : List (String × BillingAccount)) (auth : String) :
    MatchResult :=
  let parts := auth.splitOn " "
  if parts.getD 0 "" = "Bearer" then
    match parts.get? 1 with
    | some apiKey =>
        match accts.find? (fun p => p.2.apiKeys.contains apiKey) with
        | some p => MatchResult.account p.2
        | none => MatchResult.noMatch
    | none => MatchResult.noMatch
  else MatchResult.noMatch

/-- `matchAccountFromRequestHeaders`: self-origin allowlist short-circuit on
the raw origin, then (only when accounts are loaded) origin matching on the
normalized origin, then bearer API-key matching, else `false`. -/
def BillingService.matchAccountFromRequestHeaders (s : BillingService)
    (origin? authorization? : Option String) : MatchResult :=
  if truthyStr origin? && s.allowlist.contains (origin?.getD "") then
    MatchResult.selfOrigin
  else
    match s.accounts with
    | none => MatchResult.noMatch
    | some accts =>
        let byOrigin :=
          if truthyStr origin? then
            let norm := normalizeOrigin (origin?.getD "")
            accts.find? (fun p => p.2.origins.any (originMatchesAccount norm))
          else none
        match byOrigin with
        | some p => MatchResult.account p.2
        | none =>
            match authorization? with
            | some auth => matchByApiKey accts auth
            | none => MatchResult.noMatch

/-- The `typeof from !== 'string'` prologue of `charge`: a string id passes
through, a headers object is resolved; `Except.error b` models the early
`return matched` with a boolean `matched` (accounts in this system always
carry non-empty truthy ids, so a matched account always proceeds to the
charge path through its id). -/
def BillingService.resolveSource (s : BillingService) :
    ChargeSource → Except Bool String
  | ChargeSource.id fromId => Except.ok fromId
  | ChargeSource.headers o a =>
      match s.matchAccountFromRequestHeaders o a with
      | MatchResult.selfOrigin => Except.error true
      | MatchResult.noMatch => Except.error false
      | MatchResult.account acct => Except.ok acct.id

/-- `charge(from, category)`.  `none` models a thrown exception: when `from`
resolves to an id while `this.accounts` is still `undefined`, the source
evaluates `this.accounts[from]` on `undefined` and throws a `TypeError`.
A missing pricing entry reads `undefined`, which behaves as NaN in
`tryCharge`'s comparison and additions. -/
def BillingService.charge (s : BillingService) (source : ChargeSource)
    (category : String) : Option (BillingService × Bool) :=
  match s.resolveSource source with
  | Except.error b => some (s, b)
  | Except.ok fromId =>
      match s.accounts with
      | none => none
      | some accts =>
          match lookupKey accts fromId with
          | none => some (s, false)
          | some account =>
              let chargedCredits := (lookupKey s.pricing category).getD JSNum.nan
              match account.tryCharge chargedCredits with
              | (_, false) => some (s, false)
              | (account', true) =>
                  let accountCharges := (lookupKey s.pendingCharges fromId).getD []
                  let old := (lookupKey accountCharges category).getD
                    (JSNum.num 0, JSNum.num 0)
                  let entry : ChargeEntry :=
                    (old.1.add (JSNum.num 1), old.2.add chargedCredits)
                  some ({ s with
                            accounts := some (setKey accts fromId account'),
                            pendingCharges := setKey s.pendingCharges fromId
                              (setKey accountCharges category entry) }, true)

/-- The state after a `charge` call (identity when the call threw). -/
def BillingService.chargeState (s : BillingService) (source : ChargeSource)
    (category : String) : BillingService :=
  match s.charge source category with
  | some p => p.1
  | none => s

/-- Reads one account's `chargedBalance` out of the service state. -/
def BillingService.accountChargedBalance (s : BillingService) (aid : String) :
    Option JSNum :=
  match s.accounts with
  | none => none
  | some accts => (lookupKey accts aid).map BillingAccount.chargedBalance

/-- `scheduleSync()`: arms the sync timer (`setTimeout` handles are truthy). -/
def BillingService.scheduleSync (s : BillingService) : BillingService :=
  { s with syncTimerHandler := true }

/-- `terminate()`: clears the sync timer handle (the channel close is part of
the `WebSocketChannel` model below). -/
def BillingService.terminate (s : BillingService) : BillingService :=
  { s with syncTimerHandler := false, wsConnected := false }

/-- Charges arriving while the sync attempt's `notify` is awaited; a thrown
charge (impossible while accounts are loaded) leaves the state unchanged. -/
def applyDuring (s : BillingService) :
    List (ChargeSource × String) → BillingService
  | [] => s
  | c :: rest =>
      match s.charge c.1 c.2 with
      | some p => applyDuring p.1 rest
      | none => applyDuring s rest

/-- Inner loop of the failure merge: for each unsent category, element-wise
add the fresh entry (`|| [0, 0]`) into the live new-charges object. -/
def mergeCategory (live : CategoryCharges) (unsent : CategoryCharges) :
    CategoryCharges :=
  unsent.foldl
    (fun nc p =>
      let n := (lookupKey nc p.1).getD (JSNum.num 0, JSNum.num 0)
      setKey nc p.1 (p.2.1.add n.1, p.2.2.add n.2))
    live

/-- The failure merge of `syncCharges`, exactly as written: when the new
ledger has no object for an unsent account, `const newCharges =
this.pendingCharges[id] || {}` produces a detached object and every write
into it is lost — the unsent snapshot entries for that account vanish. -/
def mergeUnsent (pending : Ledger) (data : Ledger) : Ledger :=
  data.foldl
    (fun pc p =>
      match lookupKey pc p.1 with
      | none => pc
      | some live => setKey pc p.1 (mergeCategory live p.2))
    pending

/-- Restores snapshotted charged balances additively
(`acc.chargedBalance += charged`, skipping ids with no live account). -/
def restoreBalances (accts : List (String × BillingAccount))
    (balances : List (String × JSNum)) : List (String × BillingAccount) :=
  balances.foldl
    (fun m p =>
      match lookupKey m p.1 with
      | none => m
      | some a => setKey m p.1 { a with chargedBalance := a.chargedBalance.add p.2 })
    accts

/-- `syncCharges()`.  `during` lists the charges that land while the
`notify` call is awaited; `sendOk` is the outcome of that call (`false` =
the awaited send threw).  Returns the new state and whether a send was
attempted this tick. -/
def BillingService.syncCharges (s : BillingService)
    (during : List (ChargeSource × String)) (sendOk : Bool) :
    BillingService × Bool :=
  if s.syncTimerHandler = false then (s, false)
  else if s.wsConnected = false ∨ s.pendingCharges = [] ∨ s.accounts = none then
    (s.scheduleSync, false)
  else if s.syncInProgress = false then
    let data := s.pendingCharges
    let accts := s.accounts.getD []
    let chargedBalances := accts.map (fun p => (p.1, p.2.chargedBalance))
    let s1 := { s with
                  syncInProgress := true,
                  pendingCharges := [],
                  accounts := some (accts.map
                    (fun p => (p.1, { p.2 with chargedBalance := JSNum.num 0 }))) }
    let s2 := applyDuring s1 during
    let s3 :=
      if sendOk then s2
      else { s2 with
               pendingCharges := mergeUnsent s2.pendingCharges data,
               accounts := some (restoreBalances (s2.accounts.getD [])
                 chargedBalances) }
    let s4 := { s3 with syncInProgress := false }
    (if s4.syncTimerHandler then s4.scheduleSync else s4, true)
  else
    (if s.syncTimerHandler then s.scheduleSync else s, false)

/-- `WebSocketChannel` from `src/websocket-channel.js`, as the facts the
claims are about: `autoReconnect`, whether `this.ws` is non-null
(`wsAlive`), the `connected`/`disconnected` status, and how many
`setTimeout(() => this.connect(), 2000)` reconnect callbacks are pending
(the source stores no handle for them and never cancels them). -/
structure WebSocketChannel where
  autoReconnect : Bool := false
  wsAlive : Bool := false
  connected : Bool := false
  pendingReconnects : ℕ := 0
deriving DecidableEq, Repr

/-- `connect()`: unconditionally sets `autoReconnect = true` and opens a new
transport. -/
def WebSocketChannel.connect (c : WebSocketChannel) : WebSocketChannel :=
  { c with autoReconnect := true, wsAlive := true }

/-- `close()`: sets `autoReconnect = false` and asks the transport to close
(the transport's own close event then arrives as a separate `onClose`). -/
def WebSocketChannel.close (c : WebSocketChannel) : WebSocketChannel :=
  { c with autoReconnect := false }

/-- `onClose(errorCode)`: terminate and discard the transport, force
`autoReconnect = false` on a 1008 policy rejection, mark disconnected, and
schedule a reconnect timer iff `autoReconnect` is still set. -/
def WebSocketChannel.onClose (c : WebSocketChannel) (errorCode : ℕ) :
    WebSocketChannel :=
  let c1 := { c with wsAlive := false }
  let c2 := if errorCode = 1008 then { c1 with autoReconnect := false } else c1
  let c3 := { c2 with connected := false }
  if c3.autoReconnect then
    { c3 with pendingReconnects := c3.pendingReconnects + 1 }
  else c3

/-- `onError(error)`: mark disconnected, run `close()`, and schedule a
reconnect timer unconditionally. -/
def WebSocketChannel.onError (c : WebSocketChannel) : WebSocketChannel :=
  let c1 := { c with connected := false }
  let c2 := c1.close
  { c2 with pendingReconnects := c2.pendingReconnects + 1 }

/-- A pending reconnect timer fires: its callback is `() => this.connect()`,
with no cancellation and no `autoReconnect` check. -/
def WebSocketChannel.fireReconnect (c : WebSocketChannel) : WebSocketChannel :=
  if c.pendingReconnects = 0 then c
  else WebSocketChannel.connect { c with pendingReconnects := c.pendingReconnects - 1 }

/-- Externally observable events driving the channel state machine. -/
inductive WsEvent where
  | connectCall
  | closeCall
  | closeFrame (errorCode : ℕ)
  | errorFrame
  | reconnectTimer
deriving DecidableEq, Repr

/-- One step of the channel state machine. -/
def wsStep (c : WebSocketChannel) : WsEvent → WebSocketChannel
  | WsEvent.connectCall => c.connect
  | WsEvent.closeCall => c.close
  | WsEvent.closeFrame code => c.onClose code
  | WsEvent.errorFrame => c.onError
  | WsEvent.reconnectTimer => c.fireReconnect

/-- Runs the channel state machine over an event trace. -/
def wsRun (c : WebSocketChannel) (events : List WsEvent) : WebSocketChannel :=
  events.foldl wsStep c

/-!
Definitions used by the theorems below: iterated executions, invariant
statements, and the concrete instances the counter-evidence and witness
theorems evaluate.
-/

/-- Folds a sequence of numeric `tryCharge` calls over one account, keeping
the state after each call. -/
def runCharges (a : BillingAccount) (amounts : List ℤ) : BillingAccount :=
  amounts.foldl (fun acc q => (acc.tryCharge (JSNum.num q)).1) a

/-- A freshly loaded account: given balance, nothing charged yet. -/
def freshAccount (b : ℤ) : BillingAccount :=
  { id := "account", balance := JSNum.num b }

/-- The C3 safety property of one account: the balance is the given number,
the charged balance is a number that does not exceed it, and the available
balance is non-negative. -/
def withinBalance (a : BillingAccount) (b : ℤ) : Prop :=
  a.balance = JSNum.num b ∧
  ∃ c : ℤ, a.chargedBalance = JSNum.num c ∧ c ≤ b ∧ 0 ≤ b - c

/-- Linearity of one ledger entry: whenever the category's configured price
is a defined number `q`, the entry is `[n, n * q]` for some count `n`. -/
def entryLinear (pricing : List (String × JSNum)) (cat : String)
    (e : ChargeEntry) : Prop :=
  ∀ q : ℤ, lookupKey pricing cat = some (JSNum.num q) →
    ∃ n : ℕ, e.1 = JSNum.num n ∧ e.2 = JSNum.num (n * q)

/-- The C10 ledger invariant: every entry of the pending-charges ledger is
linear in its category's price. -/
def ledgerInv (s : BillingService) : Prop :=
  ∀ aid cat e,
    (lookupKey s.pendingCharges aid).bind (fun ac => lookupKey ac cat) = some e →
    entryLinear s.pricing cat e

/-- Runs a sequence of `charge` calls, propagating a thrown exception. -/
def runChargeCalls (s : BillingService) :
    List (ChargeSource × String) → Option BillingService
  | [] => some s
  | c :: rest =>
      match s.charge c.1 c.2 with
      | none => none
      | some p => runChargeCalls p.1 rest

/-- Concrete account for the C2 witness: balance 10, already charged 3. -/
def accW : BillingAccount :=
  { id := "w", balance := JSNum.num 10, chargedBalance := JSNum.num 3 }

/-- The matcher built from the allowlist `["*.example.com"]`. -/
def mExample : OriginMatcher := mkOriginMatcher ["*.example.com"]

/-- C1 scenario: one account with 100 credits, one category priced at 5,
connected, sync timer armed. -/
def c1Init : BillingService :=
  { pricing := [("api", JSNum.num 5)],
    accounts := some [("a", { id := "a", balance := JSNum.num 100 })],
    wsConnected := true,
    syncTimerHandler := true }

/-- C1 scenario after one successful charge of 5 credits. -/
def c1AfterCharge : BillingService :=
  c1Init.chargeState (ChargeSource.id "a") "api"

/-- C1 scenario after a sync tick whose send fails, with no further charges
arriving during the attempt. -/
def c1AfterFailure : BillingService :=
  (c1AfterCharge.syncCharges [] false).1

/-- A skip-tick state for the C8 witness: timer armed but not connected. -/
def sSkip : BillingService :=
  { pricing := [("api", JSNum.num 5)],
    wsConnected := false,
    syncTimerHandler := true }

/-- A service before any accounts-update message: `accounts` is undefined. -/
def c7Service : BillingService := { pricing := [("api", JSNum.num 5)] }

/-- C9 witness service: one loaded account, the category "missing" absent
from the pricing table. -/
def c9Service : BillingService :=
  { pricing := [("api", JSNum.num 5)],
    accounts := some [("a", { id := "a", balance := JSNum.num 10 })] }

/-- An account whose charged balance has been poisoned to NaN. -/
def c9AcctNan : BillingAccount :=
  { id := "a", balance := JSNum.num 10, chargedBalance := JSNum.nan }

/-- C10 witness service: empty ledger, one account, one priced category. -/
def c10Service : BillingService :=
  { pricing := [("api", JSNum.num 5)],
    accounts := some [("a", { id := "a", balance := JSNum.num 100 })] }

/-- C10 witness call sequence: two charges of the priced category. -/
def c10Calls : List (ChargeSource × String) :=
  [(ChargeSource.id "a", "api"), (ChargeSource.id "a", "api")]

/-- C10 witness end state. -/
def c10After : BillingService :=
  (runChargeCalls c10Service c10Calls).getD c10Service

/-- Channel state after: connect, non-fatal transport close (which schedules
a reconnect), then an explicit `close()`. -/
def wsAfterClose : WebSocketChannel :=
  wsRun {} [WsEvent.connectCall, WsEvent.closeFrame 1000, WsEvent.closeCall]

/-- The previous state after the pending 2-second reconnect timer fires. -/
def wsAfterTimer : WebSocketChannel :=
  wsRun wsAfterClose [WsEvent.reconnectTimer]

/-!
Helper lemmas.
-/

theorem JSNum.lt_nan (x : JSNum) : x.lt JSNum.nan = false := by
  cases x <;> rfl

theorem JSNum.nan_lt (x : JSNum) : JSNum.nan.lt x = false := rfl

theorem JSNum.add_nan (x : JSNum) : x.add JSNum.nan = JSNum.nan := by
  cases x <;> rfl

theorem JSNum.nan_add (x : JSNum) : JSNum.nan.add x = JSNum.nan := rfl

theorem JSNum.sub_nan (x : JSNum) : x.sub JSNum.nan = JSNum.nan := by
  cases x <;> rfl

theorem lookupKey_setKey_self {α : Type} (l : List (String × α)) (k : String) (v : α) :
    lookupKey (setKey l k v) k = some v := by
  induction l with
  | nil => simp [setKey, lookupKey]
  | cons p rest ih =>
      by_cases h : p.1 = k
      · simp [setKey, lookupKey, h]
      · simp [setKey, lookupKey, h, ih]

theorem lookupKey_setKey_ne {α : Type} (l : List (String × α)) (k k' : String) (v : α)
    (h : k' ≠ k) : lookupKey (setKey l k v) k' = lookupKey l k' := by
  have hk : ¬ k = k' := fun hh => h hh.symm
  induction l with
  | nil => simp [setKey, lookupKey, hk]
  | cons p rest ih =>
      by_cases hp : p.1 = k
      · simp [setKey, lookupKey, hp, hk]
      · simp [setKey, lookupKey, hp, ih]

theorem tryCharge_num (a : BillingAccount) (b c q : ℤ)
    (hb : a.balance = JSNum.num b) (hc : a.chargedBalance = JSNum.num c) :
    a.tryCharge (JSNum.num q)
      = if b - c < q then (a, false)
        else ({ a with chargedBalance := JSNum.num (c + q) }, true) := by
  unfold BillingAccount.tryCharge BillingAccount.currentBalance
  rw [hb, hc]
  by_cases h : b - c < q
  · simp [JSNum.sub, JSNum.lt, h]
  · simp [JSNum.sub, JSNum.lt, JSNum.add, h]

theorem tryCharge_nan_state (a : BillingAccount) (amount : JSNum)
    (h : a.chargedBalance = JSNum.nan) : a.tryCharge amount = (a, true) := by
  unfold BillingAccount.tryCharge BillingAccount.currentBalance
  rw [h, JSNum.sub_nan, JSNum.nan_lt, JSNum.nan_add]
  cases a
  simp_all

theorem runCharges_cons (a : BillingAccount) (q : ℤ) (rest : List ℤ) :
    runCharges a (q :: rest) = runCharges ((a.tryCharge (JSNum.num q)).1) rest := rfl

theorem runCharges_bounded (amounts : List ℤ) :
    ∀ (a : BillingAccount) (b c : ℤ), a.balance = JSNum.num b →
      a.chargedBalance = JSNum.num c → 0 ≤ c → c ≤ b →
      (∀ q ∈ amounts, (0:ℤ) ≤ q) → withinBalance (runCharges a amounts) b := by
  induction amounts with
  | nil =>
      intro a b c hb hc h0 hcb _
      exact ⟨hb, c, hc, hcb, by linarith⟩
  | cons q rest ih =>
      intro a b c hb hc h0 hcb hnn
      have hq : (0:ℤ) ≤ q := hnn q (List.mem_cons_self _ _)
      have hrest : ∀ r ∈ rest, (0:ℤ) ≤ r :=
        fun r hr => hnn r (List.mem_cons_of_mem _ hr)
      rw [runCharges_cons, tryCharge_num a b c q hb hc]
      by_cases h : b - c < q
      · rw [if_pos h]
        exact ih a b c hb hc h0 hcb hrest
      · rw [if_neg h]
        refine ih _ b (c + q) ?_ ?_ (by linarith) (by linarith) hrest
        · simpa using hb
        · simp

/-!
Claim theorems.
-/

/-- C2: for an account with numeric balances and a non-negative amount,
`tryCharge` returns false and leaves the account unchanged when the available
balance `b - c` is strictly below the amount, and otherwise adds exactly the
amount to `chargedBalance` and returns true; in particular charging exactly
the available balance succeeds, and charging any strictly larger amount fails
with the state unchanged. -/
theorem tryCharge_gate (a : BillingAccount) (b c amount : ℤ)
    (hb : a.balance = JSNum.num b) (hc : a.chargedBalance = JSNum.num c)
    (hnn : 0 ≤ amount) :
    (b - c < amount → a.tryCharge (JSNum.num amount) = (a, false))
  ∧ (amount ≤ b - c →
      a.tryCharge (JSNum.num amount)
        = ({ a with chargedBalance := JSNum.num (c + amount) }, true))
  ∧ a.tryCharge (JSNum.num (b - c))
      = ({ a with chargedBalance := JSNum.num b }, true)
  ∧ (∀ extra : ℤ, 0 < extra →
      a.tryCharge (JSNum.num (b - c + extra)) = (a, false)) := by
  refine ⟨?_, ?_, ?_, ?_⟩
  · intro h
    rw [tryCharge_num a b c amount hb hc, if_pos h]
  · intro h
    rw [tryCharge_num a b c amount hb hc, if_neg (by linarith)]
  · rw [tryCharge_num a b c (b - c) hb hc, if_neg (by linarith)]
    norm_num
  · intro extra hextra
    rw [tryCharge_num a b c (b - c + extra) hb hc, if_pos (by linarith)]

/-- Witness for C2 at a concrete account (balance 10, charged 3): charging
the exact available balance 7 succeeds and lands on a charged balance of 10,
charging 8 fails and leaves the account unchanged. -/
theorem tryCharge_gate_witness :
    accW.tryCharge (JSNum.num 7) = ({ accW with chargedBalance := JSNum.num 10 }, true)
  ∧ accW.tryCharge (JSNum.num 8) = (accW, false) :=
  ⟨by simpa using (tryCharge_gate accW 10 3 7 rfl rfl (by decide)).2.1 (by decide),
   (tryCharge_gate accW 10 3 8 rfl rfl (by decide)).1 (by decide)⟩

/-- C3: starting from a fresh account with non-negative balance `b` and no
pending charges, after any prefix of any sequence of non-negative `tryCharge`
amounts the charged balance is a number that never exceeds `b` and the
available balance is never negative. -/
theorem tryCharge_sequence_safe (b : ℤ) (amounts pre suf : List ℤ)
    (hb : 0 ≤ b) (hsplit : amounts = pre ++ suf)
    (hnn : ∀ q ∈ amounts, (0:ℤ) ≤ q) :
    withinBalance (runCharges (freshAccount b) pre) b := by
  have hpre : ∀ q ∈ pre, (0:ℤ) ≤ q :=
    fun q hq => hnn q (hsplit ▸ List.mem_append_left _ hq)
  exact runCharges_bounded pre (freshAccount b) b 0 rfl rfl le_rfl hb hpre

/-- Witness for C3: the prefix `[3, 3]` of the sequence `[3, 3, 9]` of
charges against a fresh balance of 5 keeps the account within balance. -/
theorem tryCharge_sequence_safe_witness :
    withinBalance (runCharges (freshAccount 5) [3, 3]) 5 :=
  tryCharge_sequence_safe 5 [3, 3, 9] [3, 3] [9] (by decide) rfl (by decide)

/-- C1 (counter-evidence): one charge of 5 credits is recorded as the ledger
entry `[1, 5]`; a failed sync attempt with no charges arriving during the
window should, per the claim, merge the snapshot back so the entry is again
`[1, 5]` — but the code's merge writes into a detached `|| {}` object for any
account missing from the fresh ledger, so the entry is dropped and the final
ledger is empty while the account's restored `chargedBalance` still records
the 5 charged credits: the ledger total (0) no longer equals the charges
since the last successful sync (5). -/
theorem syncFailure_drops_unsent_snapshot :
    c1AfterCharge.pendingCharges = [("a", [("api", (JSNum.num 1, JSNum.num 5))])]
  ∧ c1AfterFailure.pendingCharges = []
  ∧ c1AfterFailure.accountChargedBalance "a" = some (JSNum.num 5) := by decide

/-- C4 (counter-evidence): with allowlist `["*.example.com"]` the matcher
accepts `"api.example.com"` and `"example.com"` as the claim states, but it
also accepts `"evil-example.com"`: the `\w+\.\w+$` regex stops at the hyphen
(not a word character) and extracts `"example.com"`, which is in the wildcard
set, even though the origin's last two dot-separated labels form
`"evil-example.com"`. -/
theorem matchOrigin_hyphen_wildcard_bypass :
    mExample.matchOrigin "api.example.com" = some true
  ∧ mExample.matchOrigin "example.com" = some true
  ∧ mExample.matchOrigin "evil-example.com" = some true := by decide

/-- C5 (counter-evidence): `match` is not total — for the empty origin (and
for any origin whose tail is not `word.word`, such as `"localhost"`) the
regex does not match, `exec` returns null, and the unguarded `[0]` indexing
throws a `TypeError` (modelled as `none`) instead of returning false. -/
theorem matchOrigin_throws_on_unmatched_origin :
    mExample.matchOrigin "" = none
  ∧ mExample.matchOrigin "localhost" = none := by decide

/-- C6 (counter-evidence): after a non-fatal transport close schedules a
reconnect, calling `close()` sets `autoReconnect := false` but the pending
timer is neither cancelled nor guarded, so when it fires its
`() => this.connect()` callback unconditionally re-opens the transport and
even re-arms `autoReconnect`. -/
theorem pendingReconnect_fires_after_close :
    wsAfterClose.autoReconnect = false
  ∧ wsAfterClose.wsAlive = false
  ∧ wsAfterClose.pendingReconnects = 1
  ∧ wsAfterTimer.wsAlive = true
  ∧ wsAfterTimer.autoReconnect = true := by decide

/-- C7 (counter-evidence): before any accounts-update message `this.accounts`
is still undefined, so `charge` with a string account id evaluates
`this.accounts[from]` on undefined and throws a `TypeError` (modelled as
`none`) instead of returning false; the headers path of the same state does
return false gracefully. -/
theorem charge_throws_before_accounts_loaded :
    c7Service.accounts = none
  ∧ c7Service.charge (ChargeSource.id "a") "api" = none
  ∧ c7Service.charge (ChargeSource.headers (some "https://client.app") none) "api"
      = some (c7Service, false) := by decide

/-- C8: a sync tick with a cancelled timer does nothing and does not
re-schedule; a tick in any of the skip cases — not connected, empty ledger,
accounts not yet loaded, or a previous sync still in flight — sends nothing
but re-arms the timer, so the loop keeps running while the service is
alive. -/
theorem syncCharges_tick (s : BillingService)
    (during : List (ChargeSource × String)) (sendOk : Bool) :
    (s.syncTimerHandler = false → s.syncCharges during sendOk = (s, false))
  ∧ (s.syncTimerHandler = true →
      (s.wsConnected = false ∨ s.pendingCharges = [] ∨ s.accounts = none ∨
        s.syncInProgress = true) →
      s.syncCharges during sendOk = (s.scheduleSync, false)) := by
  constructor
  · intro h
    unfold BillingService.syncCharges
    rw [if_pos h]
  · intro ht hskip
    unfold BillingService.syncCharges
    rw [if_neg (by simp [ht])]
    by_cases h2 : s.wsConnected = false ∨ s.pendingCharges = [] ∨ s.accounts = none
    · rw [if_pos h2]
    · rw [if_neg h2]
      have hsp : s.syncInProgress = true := by tauto
      rw [if_neg (by simp [hsp])]
      simp [ht]

/-- Witness for C8: a concrete disconnected state with the timer armed skips
the send and re-arms the timer. -/
theorem syncCharges_tick_witness :
    sSkip.syncCharges [] true = (sSkip.scheduleSync, false) :=
  (syncCharges_tick sSkip [] true).2 rfl (Or.inl rfl)

/-- C9: charging a loaded account under a category absent from the pricing
table returns true (never false, no exception), leaves the account's
`chargedBalance` equal to NaN, and any account whose `chargedBalance` is NaN
satisfies every subsequent `tryCharge`, of any amount, with `true` and an
unchanged (still NaN) state: the overspend gate is permanently disabled. -/
theorem charge_unknown_category_disables_gate
    (s : BillingService) (accts : List (String × BillingAccount))
    (aid : String) (acc : BillingAccount) (cat : String)
    (haccts : s.accounts = some accts)
    (hacc : lookupKey accts aid = some acc)
    (hcat : lookupKey s.pricing cat = none) :
    (s.charge (ChargeSource.id aid) cat).map Prod.snd = some true
  ∧ (s.chargeState (ChargeSource.id aid) cat).accountChargedBalance aid
      = some JSNum.nan
  ∧ (∀ (a : BillingAccount) (amount : JSNum), a.chargedBalance = JSNum.nan →
      a.tryCharge amount = (a, true)) := by
  have htc : acc.tryCharge JSNum.nan
      = ({ acc with chargedBalance := JSNum.nan }, true) := by
    unfold BillingAccount.tryCharge
    rw [JSNum.lt_nan, JSNum.add_nan]
    simp
  refine ⟨?_, ?_, fun a amount h => tryCharge_nan_state a amount h⟩
  · unfold BillingService.charge BillingService.resolveSource
    simp only [haccts, hacc, hcat, Option.getD, htc]
    simp
  · unfold BillingService.chargeState BillingService.charge
      BillingService.resolveSource BillingService.accountChargedBalance
    simp only [haccts, hacc, hcat, Option.getD, htc]
    simp [lookupKey_setKey_self]

/-- Witness for C9: the concrete service with pricing `[("api", 5)]` charged
under the unknown category `"missing"` returns true, and the resulting
NaN-poisoned account accepts a charge of 1000000 against a balance of 10. -/
theorem charge_unknown_category_disables_gate_witness :
    (c9Service.charge (ChargeSource.id "a") "missing").map Prod.snd = some true
  ∧ c9AcctNan.tryCharge (JSNum.num 1000000) = (c9AcctNan, true) :=
  ⟨(charge_unknown_category_disables_gate c9Service
      [("a", { id := "a", balance := JSNum.num 10 })] "a"
      { id := "a", balance := JSNum.num 10 } "missing" rfl (by decide) (by decide)).1,
   (charge_unknown_category_disables_gate c9Service
      [("a", { id := "a", balance := JSNum.num 10 })] "a"
      { id := "a", balance := JSNum.num 10 } "missing" rfl (by decide) (by decide)).2.2
      c9AcctNan (JSNum.num 1000000) rfl⟩

theorem ledgerInv_of_empty (s : BillingService) (h : s.pendingCharges = []) :
    ledgerInv s := by
  intro aid cat e hlook
  rw [h] at hlook
  simp [lookupKey] at hlook

theorem charge_preserves_ledgerInv {s : BillingService} {src : ChargeSource}
    {cat : String} {p : BillingService × Bool}
    (h : s.charge src cat = some p) (hinv : ledgerInv s) : ledgerInv p.1 := by
  unfold BillingService.charge at h
  cases hres : s.resolveSource src with
  | error b =>
      simp only [hres] at h
      injection h with h'
      subst h'
      exact hinv
  | ok fid =>
      simp only [hres] at h
      cases haccts : s.accounts with
      | none => simp [haccts] at h
      | some accts =>
          simp only [haccts] at h
          cases hacc : lookupKey accts fid with
          | none =>
              simp only [hacc] at h
              injection h with h'
              subst h'
              exact hinv
          | some account =>
              simp only [hacc] at h
              cases htc : account.tryCharge ((lookupKey s.pricing cat).getD JSNum.nan) with
              | mk account' ok =>
                  cases ok with
                  | false =>
                      simp only [htc] at h
                      injection h with h'
                      subst h'
                      exact hinv
                  | true =>
                      simp only [htc] at h
                      injection h with h'
                      subst h'
                      intro aid cat' e hlook q hq
                      simp only at hlook hq
                      by_cases haid : aid = fid
                      · subst haid
                        rw [lookupKey_setKey_self] at hlook
                        simp only [Option.bind] at hlook
                        by_cases hc : cat' = cat
                        · subst hc
                          rw [lookupKey_setKey_self] at hlook
                          injection hlook with he
                          subst he
                          rw [hq]
                          simp only [Option.getD]
                          cases hAC : lookupKey s.pendingCharges aid with
                          | none =>
                              exact ⟨1, by simp [lookupKey, JSNum.add],
                                by simp [lookupKey, JSNum.add]⟩
                          | some ac0 =>
                              dsimp only
                              cases hold : lookupKey ac0 cat' with
                              | none =>
                                  exact ⟨1, by simp [JSNum.add], by simp [JSNum.add]⟩
                              | some oldEntry =>
                                  dsimp only
                                  obtain ⟨n, hn1, hn2⟩ :=
                                    hinv aid cat' oldEntry (by rw [hAC]; simpa using hold) q hq
                                  refine ⟨n + 1, ?_, ?_⟩
                                  · rw [hn1]
                                    simp only [JSNum.add, JSNum.num.injEq]
                                    push_cast
                                    ring
                                  · rw [hn2]
                                    simp only [JSNum.add, JSNum.num.injEq]
                                    push_cast
                                    ring
                        · rw [lookupKey_setKey_ne _ _ _ _ hc] at hlook
                          cases hAC : lookupKey s.pendingCharges aid with
                          | none =>
                              rw [hAC] at hlook
                              simp [lookupKey] at hlook
                          | some ac0 =>
                              rw [hAC] at hlook
                              simp only [Option.getD] at hlook
                              exact hinv aid cat' e (by rw [hAC]; simpa using hlook) q hq
                      · rw [lookupKey_setKey_ne _ _ _ _ haid] at hlook
                        exact hinv aid cat' e hlook q hq

theorem runChargeCalls_preserves (calls : List (ChargeSource × String)) :
    ∀ s s' : BillingService, ledgerInv s → runChargeCalls s calls = some s' →
      ledgerInv s' := by
  induction calls with
  | nil =>
      intro s s' hinv h
      unfold runChargeCalls at h
      injection h with h'
      subst h'
      exact hinv
  | cons c rest ih =>
      intro s s' hinv h
      unfold runChargeCalls at h
      split at h
      · exact absurd h (by simp)
      · rename_i p heq
        exact ih p.1 s' (charge_preserves_ledgerInv heq hinv) h

/-- C10: from an empty pending-charges ledger, any sequence of `charge`
calls keeps every ledger entry `[count, creditsCharged]` linear in its
category's configured price: `creditsCharged = count * price` whenever the
price is a defined number; in particular each successful charge preserves
the invariant. -/
theorem charge_calls_keep_ledger_linear (s : BillingService)
    (calls : List (ChargeSource × String)) (s' : BillingService)
    (hempty : s.pendingCharges = [])
    (hrun : runChargeCalls s calls = some s') : ledgerInv s' :=
  runChargeCalls_preserves calls s s' (ledgerInv_of_empty s hempty) hrun

/-- Witness for C10: two charges of the category priced at 5 against a
concrete service leave a ledger whose entries are all linear. -/
theorem charge_calls_keep_ledger_linear_witness : ledgerInv c10After :=
  charge_calls_keep_ledger_linear c10Service c10Calls c10After rfl (by decide)
